import Mathlib

/-!
Verification development for the OVITO Python scripting layer
(`src/plugins/pyscript/python/ovito`): the dict-like interface of
`DataCollection`, its scalar attributes view, the `copy_if_needed`
copy-on-write protocol, the `export_file` helper, and the underlying
pipeline evaluation engine described by the design documentation.

Python objects are shallowly embedded: object identity (Python `is`,
and the default `==` of the native wrapper classes, which falls back to
identity) is modelled by a numeric object id `oid`; fallible Python code
(raising `KeyError`, `ValueError`, `TypeError`, `RuntimeError`) is
modelled with `Except String`; mutation is explicit state passing.
-/

set_option autoImplicit false

namespace Ovito

/-- A scalar attribute value stored by a `DataCollection`: the attribute
store holds integers, floats and strings.  Float payloads are modelled as
rationals: the attribute machinery only stores and returns them and
performs no arithmetic on them. -/
inductive AttrValue where
  | intVal (i : Int)
  | floatVal (x : Rat)
  | strVal (s : String)
deriving DecidableEq, Repr

/-- A Python value arriving at the attribute interface: an int, float or
string (the storable kinds), `None`, or a value of any other Python type
(identified by the name of its type, e.g. a list or dict). -/
inductive PyValue where
  | pyInt (i : Int)
  | pyFloat (x : Rat)
  | pyStr (s : String)
  | pyNone
  | pyOther (typeName : String)
deriving DecidableEq, Repr

/-- The Python object corresponding to a stored attribute value. -/
def AttrValue.toPy : AttrValue → PyValue
  | .intVal i => .pyInt i
  | .floatVal x => .pyFloat x
  | .strVal s => .pyStr s

/-- A data object held by a `DataCollection`.  `oid` models Python object
identity; `data_key` models the optional `_data_key` attribute (`none`
when `hasattr(o, "_data_key")` is false); `object_title` models the
native display title; `num_dependents` is the native reference count;
`payload` stands for the object's opaque native contents. -/
structure DataObject where
  oid : Nat
  data_key : Option String
  object_title : String
  num_dependents : Nat
  payload : Nat
deriving DecidableEq, Repr

/-- A `DataCollection`: the ordered list of data objects (`self.objects`)
plus the native scalar attribute store, an insertion-ordered association
list from attribute names to values. -/
structure DataCollection where
  objects : List DataObject
  attrs : List (String × AttrValue)
deriving DecidableEq, Repr

/-- The key under which an object is reported by the dict-like interface:
its `_data_key` when that attribute exists, otherwise its display title
(source: `_DataCollection__iter__` and `_DataCollection__getitem__`). -/
def objKey (o : DataObject) : String :=
  match o.data_key with
  | some k => k
  | none => o.object_title

/-- `list(collection)`: the keys of the objects in insertion order
(source: `_DataCollection__iter__`). -/
def keysList (c : DataCollection) : List String :=
  c.objects.map objKey

/-- `collection[key]` (source: `_DataCollection__getitem__`): scan
`self.objects` in order, return the first object whose key equals `key`
(case-sensitive exact string comparison), else raise `KeyError`. -/
def getitem (c : DataCollection) (key : String) : Except String DataObject :=
  match c.objects.find? (fun o => objKey o == key) with
  | some o => .ok o
  | none => .error ("DataCollection does not contain object key " ++ key ++ ".")

/-- `obj in collection.values()`: the `collections.abc.Mapping` mix-in
iterates the keys given by `__iter__` and compares each `self[key]`
against `obj`; the native wrapper classes define no `__eq__`, so the
comparison is object identity, modelled by `oid` equality. -/
def inValues (c : DataCollection) (obj : DataObject) : Bool :=
  (keysList c).any (fun k =>
    match getitem c k with
    | .ok o => o.oid == obj.oid
    | .error _ => false)

/-- Modelled from the spec: the native `CloneHelper().clone(obj, False)`
used by `copy_if_needed` makes an exact copy of the object; the copy is a
fresh object (new identity) referenced by nobody except the collection it
is about to be placed in, so its reference count is 1. -/
def cloneObj (obj : DataObject) (freshId : Nat) : DataObject :=
  { obj with oid := freshId, num_dependents := 1 }

/-- Modelled from the spec: the native `DataCollection.replace(obj, clone)`
replaces the original object with the copy inside the collection (the
object list keeps its order; the attribute store is untouched). -/
def replaceObj (c : DataCollection) (obj clone : DataObject) : DataCollection :=
  { c with objects := c.objects.map (fun o => if o.oid = obj.oid then clone else o) }

/-- `collection.copy_if_needed(obj)` (source:
`_DataCollection_copy_if_needed`): raise `ValueError` when `obj` is not
among `self.values()`; otherwise clone and replace `obj` when its
reference count shows another dependent besides this collection
(`num_dependents > 1`), returning the clone, and return `obj` itself
otherwise.  `freshId` is the identity the native clone helper allocates
for the copy. -/
def copy_if_needed (c : DataCollection) (obj : DataObject) (freshId : Nat) :
    Except String (DataCollection × DataObject) :=
  if inValues c obj then
    if obj.num_dependents > 1 then
      let clone := cloneObj obj freshId
      .ok (replaceObj c obj clone, clone)
    else
      .ok (c, obj)
  else
    .error "DataCollection.copy_if_needed() must be called with an object that is part of this data collection."

/-- Modelled from the spec: the native `DataCollection.get_attribute(key)`
returns the value stored under `key`, or `None` when no attribute of that
name exists (the scripting layer's `_AttributesView` relies on exactly
this contract). -/
def get_attribute (c : DataCollection) (key : String) : Option AttrValue :=
  (c.attrs.find? (fun p => p.1 == key)).map Prod.snd

/-- Store a value in an association list of attributes: overwrite the
entry in place when the key is present, append otherwise. -/
def storeList (l : List (String × AttrValue)) (k : String) (v : AttrValue) :
    List (String × AttrValue) :=
  if l.any (fun p => p.1 == k) then
    l.map (fun p => if p.1 == k then (k, v) else p)
  else
    l ++ [(k, v)]

/-- Remove every entry of an attribute association list under key `k`. -/
def removeList (l : List (String × AttrValue)) (k : String) :
    List (String × AttrValue) :=
  l.filter (fun p => !(p.1 == k))

/-- `DataCollection` with the attribute `k` removed. -/
def removeAttr (c : DataCollection) (k : String) : DataCollection :=
  { c with attrs := removeList c.attrs k }

/-- `DataCollection` with the attribute `k` set to `v`. -/
def storeAttr (c : DataCollection) (k : String) (v : AttrValue) : DataCollection :=
  { c with attrs := storeList c.attrs k v }

/-- Modelled from the spec: the native `DataCollection.set_attribute(key, value)`.
Attribute values are typed as int, float, or string; no other value types
are accepted.  Setting a `None` value removes the attribute — the
scripting layer's `_AttributesView.__delitem__` deletes an attribute by
calling `set_attribute(key, None)`, so the native setter must treat
`None` as removal rather than reject it. -/
def set_attribute (c : DataCollection) (key : String) (v : PyValue) :
    Except String DataCollection :=
  match v with
  | .pyInt i => .ok (storeAttr c key (.intVal i))
  | .pyFloat x => .ok (storeAttr c key (.floatVal x))
  | .pyStr s => .ok (storeAttr c key (.strVal s))
  | .pyNone => .ok (removeAttr c key)
  | .pyOther t => .error ("Attribute value of type " ++ t ++ " is not supported.")

/-- `collection.attributes[key]` (source: `_AttributesView.__getitem__`,
for string keys): return `get_attribute(key)` when it is not `None`,
else raise `KeyError`. -/
def attrView_getitem (c : DataCollection) (key : String) : Except String AttrValue :=
  match get_attribute c key with
  | some v => .ok v
  | none => .error ("DataCollection contains no attribute named " ++ key ++ ".")

/-- The same read, seen as the Python value handed back to the caller. -/
def attrView_getitemPy (c : DataCollection) (key : String) : Except String PyValue :=
  (attrView_getitem c key).map AttrValue.toPy

/-- `collection.attributes[key] = value` (source:
`_AttributesView.__setitem__`, for string keys): forward to the native
`set_attribute`. -/
def attrView_setitem (c : DataCollection) (key : String) (v : PyValue) :
    Except String DataCollection :=
  set_attribute c key v

/-- `del collection.attributes[key]` (source:
`_AttributesView.__delitem__`, for string keys): raise `KeyError` when
`get_attribute(key)` is `None`, otherwise delete by calling
`set_attribute(key, None)`. -/
def attrView_delitem (c : DataCollection) (key : String) : Except String DataCollection :=
  match get_attribute c key with
  | some _ => set_attribute c key .pyNone
  | none => .error ("DataCollection contains no attribute named " ++ key ++ ".")

/-!
### The pipeline evaluation engine

The `Pipeline`, `Modifier` and `PipelineStatus` classes are native code
not contained in this repository slice; the definitions below are
modelled from the design documentation (spec sections 3, 4.4, 4.5, 5
and 7).
-/

/-- Modelled from the spec: the severity carried by a `PipelineStatus`
(Error > Warning > Success). -/
inductive Severity where
  | success
  | warning
  | error
deriving DecidableEq, Repr

/-- Modelled from the spec: a `PipelineStatus` is a severity plus a
human-readable message. -/
structure PipelineStatus where
  severity : Severity
  message : String
deriving DecidableEq, Repr

/-- Modelled from the spec: a `Modifier` is a transformation stage with an
enabled flag, a run step consuming the upstream collection and producing
an output collection together with its status, and a fingerprint of its
time-dependent parameters as evaluated at a given frame (used as a
cache-key component). -/
structure Modifier where
  enabled : Bool
  run : DataCollection → DataCollection × PipelineStatus
  fingerprint : Nat → Nat

/-- Modelled from the spec (section 4.4, step 5): thread the collection
through each enabled modifier in list order, stopping immediately when a
modifier reports Error severity; disabled modifiers are pass-through
no-ops.  Besides the final collection, the execution trace is returned:
the list-position index and status of every modifier that actually ran,
in execution order. -/
def evalMods : List Modifier → DataCollection → Nat →
    DataCollection × List (Nat × PipelineStatus)
  | [], c, _ => (c, [])
  | m :: ms, c, i =>
    if m.enabled then
      if (m.run c).2.severity = .error then
        ((m.run c).1, [(i, (m.run c).2)])
      else
        ((evalMods ms (m.run c).1 (i + 1)).1,
          (i, (m.run c).2) :: (evalMods ms (m.run c).1 (i + 1)).2)
    else
      evalMods ms c (i + 1)

/-- Modelled from the spec (section 4.4): the aggregated status is the
most severe status among all executed modifiers; its message is that of
the most severe stage, or the concatenated warning messages when several
Warning-level stages ran. -/
def aggregateStatus (sts : List PipelineStatus) : PipelineStatus :=
  match sts.find? (fun st => st.severity == Severity.error) with
  | some st => st
  | none =>
    match sts.filter (fun st => st.severity == Severity.warning) with
    | [] => ⟨.success, ""⟩
    | [w] => w
    | ws => ⟨.warning, String.intercalate "; " (ws.map PipelineStatus.message)⟩

/-- A pipeline-produced data collection together with its instance
identity: `cid` models Python/native reference identity, so that sharing
a cached collection (reference equality) is distinguishable from handing
out an equal-valued clone. -/
structure PDC where
  cid : Nat
  data : DataCollection
deriving DecidableEq, Repr

/-- Modelled from the spec: a pipeline source exposes `num_frames` and
produces the source data collection for each frame. -/
structure Source where
  num_frames : Nat
  evaluate : Nat → DataCollection

/-- Modelled from the spec (section 4.4, step 2): the cache key is the
frame, the pipeline revision, and the per-modifier time-dependent
parameter fingerprints evaluated at this frame. -/
structure CacheKey where
  frame : Nat
  revision : Nat
  fingerprints : List Nat
deriving DecidableEq, Repr

/-- One evaluation result held by the cache. -/
structure CachedResult where
  collection : PDC
  status : PipelineStatus
deriving DecidableEq, Repr

/-- Modelled from the spec: a `Pipeline` is an ordered modifier list, a
source, a revision counter incremented on structural change, and the
evaluation cache.  `nextId` is the allocator for fresh collection
identities: it increases exactly when a new result collection is
materialised, so an unchanged `nextId` witnesses that no new instance
was created. -/
structure Pipeline where
  modifiers : List Modifier
  source : Source
  revision : Nat
  cache : List (CacheKey × CachedResult)
  nextId : Nat

/-- The cache key the pipeline computes for a frame. -/
def cacheKeyAt (p : Pipeline) (frame : Nat) : CacheKey :=
  ⟨frame, p.revision, p.modifiers.map (fun m => m.fingerprint frame)⟩

/-- Cache lookup by key. -/
def lookupCache (cache : List (CacheKey × CachedResult)) (key : CacheKey) :
    Option CachedResult :=
  (cache.find? (fun e => e.1 == key)).map Prod.snd

/-- The statuses reported by the modifiers that run when the pipeline is
evaluated from scratch at `frame`. -/
def pipelineStatuses (p : Pipeline) (frame : Nat) : List PipelineStatus :=
  (evalMods p.modifiers (p.source.evaluate frame) 0).2.map Prod.snd

/-- The data collection produced when the pipeline is evaluated from
scratch at `frame`. -/
def pipelineResultData (p : Pipeline) (frame : Nat) : DataCollection :=
  (evalMods p.modifiers (p.source.evaluate frame) 0).1

/-- Modelled from the spec (sections 4.4 and 7): `Pipeline.compute(frame)`
as seen from Python.  Validate the frame range (out of range is an
error, not a clamp); on a cache hit return the cached collection itself
(sharing, not cloning, and leaving the pipeline state untouched); on a
miss evaluate the source and thread it through the modifiers.  When the
aggregate severity is Error the Python binding raises instead of
returning, and nothing is cached; on success the fresh result is stored
in the cache and returned. -/
def compute (p : Pipeline) (frame : Nat) :
    Except String (Pipeline × PDC × PipelineStatus) :=
  if frame < p.source.num_frames then
    match lookupCache p.cache (cacheKeyAt p frame) with
    | some r => .ok (p, r.collection, r.status)
    | none =>
      if (aggregateStatus (pipelineStatuses p frame)).severity = .error then
        .error (aggregateStatus (pipelineStatuses p frame)).message
      else
        .ok ({ p with
                cache := (cacheKeyAt p frame,
                  ⟨⟨p.nextId, pipelineResultData p frame⟩,
                    aggregateStatus (pipelineStatuses p frame)⟩) :: p.cache,
                nextId := p.nextId + 1 },
             ⟨p.nextId, pipelineResultData p frame⟩,
             aggregateStatus (pipelineStatuses p frame))
  else
    .error "Frame index is out of range."

/-!
### The `export_file` helper

Control flow embedded from `src/plugins/pyscript/python/ovito/io/export_file.py`;
the native exporter's frame loop is modelled from the spec.
-/

/-- The kinds of `data` argument accepted by `export_file` (a `Pipeline`,
a `DataCollection`, a single `DataObject`, `None`, or any other Python
object, which is rejected with a `TypeError`). -/
inductive ExportData where
  | pipelineData (p : Pipeline)
  | collectionData (c : DataCollection)
  | objectData (o : DataObject)
  | noneData
  | otherData (typeName : String)

/-- Observable steps of an `export_file` run: the defensive pipeline
evaluation, the handover of the pipeline to the exporter
(`exporter.set_pipeline`), and each frame written to the output file. -/
inductive ExportEvent where
  | evaluatedPipeline (frame : Nat)
  | handedPipeline
  | wroteFrame (frame : Nat)
deriving DecidableEq, Repr

/-- Modelled from the spec (section 5): the native
`FileExporter.export_nodes` writes the requested frame sequence in
order, polling the task manager's cancellation flag before each frame;
on cancellation it stops, retaining the output written so far, and
reports the cancellation by returning `false` (a distinguished boolean,
not an exception). -/
def export_nodes (frames : List Nat) (canceled : Nat → Bool) :
    List Nat × Bool :=
  match frames with
  | [] => ([], true)
  | f :: fs =>
    if canceled f then
      ([], false)
    else
      let r := export_nodes fs canceled
      (f :: r.1, r.2)

/-- The tail of `export_file` shared by all accepted data kinds: hand the
(possibly synthesised) pipeline to the exporter, run `export_nodes`, and
raise `RuntimeError` when it reports cancellation (source:
`export_file`, final lines). -/
def runExporter (pre : List ExportEvent) (frames : List Nat)
    (canceled : Nat → Bool) : List ExportEvent × Except String Unit :=
  if (export_nodes frames canceled).2 then
    (pre ++ [ExportEvent.handedPipeline]
        ++ (export_nodes frames canceled).1.map ExportEvent.wroteFrame,
     .ok ())
  else
    (pre ++ [ExportEvent.handedPipeline]
        ++ (export_nodes frames canceled).1.map ExportEvent.wroteFrame,
     .error "Operation has been canceled by the user.")

/-- `export_file(data, file, format, ...)` (source: `export_file`),
restricted to the behaviour the data-dispatch contract fixes: for a
`Pipeline` argument the pipeline is evaluated once at the export frame —
so that a failing evaluation raises right there, because the exporter
would silently ignore error status codes — before being handed to the
exporter; a `DataCollection`, `DataObject` or `None` argument is wrapped
and handed over without such a defensive evaluation; any other object is
rejected with a `TypeError`.  `frames` is the frame sequence the
exporter will write and `canceled` the task manager's cancellation
flag. -/
def exportFileModel (data : ExportData) (frames : List Nat) (frame : Nat)
    (canceled : Nat → Bool) : List ExportEvent × Except String Unit :=
  match data with
  | .pipelineData p =>
    match compute p frame with
    | .error msg => ([], .error msg)
    | .ok _ => runExporter [ExportEvent.evaluatedPipeline frame] frames canceled
  | .collectionData _ => runExporter [] frames canceled
  | .objectData _ => runExporter [] frames canceled
  | .noneData => runExporter [] frames canceled
  | .otherData t =>
    ([], .error ("Invalid data. Cannot export this kind of Python object: " ++ t))

/-!
### Concrete fixtures

Small concrete collections, objects and pipelines used to evaluate the
theorems below on explicit inputs.
-/

/-- A data object carrying a data key, referenced only by its collection. -/
def oCell : DataObject := ⟨1, some "cell", "Simulation cell", 1, 10⟩

/-- A data object without a data key (looked up by its display title),
shared with an upstream collection (`num_dependents = 2`). -/
def oPos : DataObject := ⟨2, none, "Position", 2, 20⟩

/-- A data object not contained in the fixture collection. -/
def oOutside : DataObject := ⟨3, some "mesh", "Surface mesh", 1, 30⟩

/-- A concrete collection holding `oCell` and `oPos` plus one scalar
attribute. -/
def cFix : DataCollection := ⟨[oCell, oPos], [("Timestep", .intVal 140000)]⟩

/-- The empty data collection. -/
def emptyDC : DataCollection := ⟨[], []⟩

/-- A modifier reporting a warning. -/
def mWarn : Modifier := ⟨true, fun c => (c, ⟨.warning, "w"⟩), fun _ => 0⟩

/-- A modifier reporting an error. -/
def mErr : Modifier := ⟨true, fun c => (c, ⟨.error, "boom"⟩), fun _ => 0⟩

/-- A modifier reporting success. -/
def mOk : Modifier := ⟨true, fun c => (c, ⟨.success, ""⟩), fun _ => 0⟩

/-- A one-frame source producing the empty collection. -/
def srcOne : Source := ⟨1, fun _ => emptyDC⟩

/-- A pipeline with no modifiers over `srcOne`, empty cache. -/
def pPlain : Pipeline := ⟨[], srcOne, 0, [], 0⟩

/-- The state of `pPlain` after its first successful `compute 0`. -/
def pPlainAfter : Pipeline :=
  ⟨[], srcOne, 0, [(⟨0, 0, []⟩, ⟨⟨0, emptyDC⟩, ⟨.success, ""⟩⟩)], 1⟩

/-- A pipeline whose single modifier fails. -/
def pFail : Pipeline := ⟨[mErr], srcOne, 0, [], 0⟩

/-- A cancellation flag: the user cancels once frame 1 is reached. -/
def cancelAtOne : Nat → Bool := fun f => decide (1 ≤ f)

/-!
## Theorems

First the supporting lemmas about the embedded operations, then one
theorem per specification claim.
-/

/-- A successful `__getitem__` lookup returns an object of the collection
whose key is exactly the requested one. -/
theorem getitem_ok_mem {c : DataCollection} {k : String} {o : DataObject}
    (h : getitem c k = .ok o) : o ∈ c.objects ∧ objKey o = k := by
  unfold getitem at h
  cases hf : c.objects.find? (fun o => objKey o == k) with
  | none => rw [hf] at h; cases h
  | some o' =>
    rw [hf] at h
    cases h
    exact ⟨List.mem_of_find?_eq_some hf, by simpa using List.find?_some hf⟩

/-- `__getitem__` raises `KeyError` exactly when no object of the
collection has the requested key. -/
theorem getitem_error_iff {c : DataCollection} {k : String} :
    (∃ msg, getitem c k = .error msg) ↔ ∀ o ∈ c.objects, objKey o ≠ k := by
  unfold getitem
  cases hf : c.objects.find? (fun o => objKey o == k) with
  | none =>
    simp only [hf]
    constructor
    · intro _ o hm he
      have := List.find?_eq_none.mp hf o hm
      simp [he] at this
    · intro _
      exact ⟨_, rfl⟩
  | some o' =>
    simp only [hf]
    constructor
    · rintro ⟨msg, h⟩
      cases h
    · intro hall
      have h1 : o' ∈ c.objects := List.mem_of_find?_eq_some hf
      have h2 : objKey o' = k := by simpa using List.find?_some hf
      exact absurd h2 (hall o' h1)

/-- When the displayed keys are pairwise distinct, looking up the key of
a member object returns exactly that object. -/
theorem find?_key_of_nodup {l : List DataObject} {o : DataObject}
    (hnd : (l.map objKey).Nodup) (hm : o ∈ l) :
    l.find? (fun o' => objKey o' == objKey o) = some o := by
  induction l with
  | nil => cases hm
  | cons a t ih =>
    rcases List.mem_cons.mp hm with rfl | hmt
    · exact List.find?_cons_of_pos _ (by simp)
    · have hnd' : (objKey a ∉ t.map objKey) ∧ (t.map objKey).Nodup := by
        rw [List.map_cons] at hnd
        exact List.nodup_cons.mp hnd
      have hne : objKey a ≠ objKey o := by
        intro he
        exact hnd'.1 (he ▸ List.mem_map_of_mem objKey hmt)
      rw [List.find?_cons_of_neg _ (by simp [hne])]
      exact ih hnd'.2 hmt

/-- With pairwise distinct keys, `collection[objKey o]` returns `o` for
every member `o`. -/
theorem getitem_self {c : DataCollection} {o : DataObject}
    (hnd : (keysList c).Nodup) (hm : o ∈ c.objects) :
    getitem c (objKey o) = .ok o := by
  unfold getitem
  rw [find?_key_of_nodup hnd hm]

/-- Claim C3: `collection[k]` returns an object of the collection whose
data key (or, for objects without a data key, display title) equals `k`
under case-sensitive exact comparison; it raises `KeyError` if and only
if no object matches `k` (an absent key is never mapped to a default);
and, under the key-uniqueness invariant, it returns exactly the matching
object. -/
theorem claim_C3 (c : DataCollection) (k : String) :
    (∀ o, getitem c k = .ok o → o ∈ c.objects ∧ objKey o = k)
    ∧ ((∃ msg, getitem c k = .error msg) ↔ ∀ o ∈ c.objects, objKey o ≠ k)
    ∧ ((keysList c).Nodup → ∀ o ∈ c.objects, objKey o = k → getitem c k = .ok o) :=
  ⟨fun _ h => getitem_ok_mem h, getitem_error_iff,
   fun hnd _o hm hk => hk ▸ getitem_self hnd hm⟩

/-- Witness for C3 on the concrete fixture collection: lookup by data
key and by display title, and the `KeyError` for an absent key and a
case-mismatched key. -/
theorem claim_C3_witness :
    getitem cFix "cell" = .ok oCell
    ∧ getitem cFix "Position" = .ok oPos
    ∧ (∃ msg, getitem cFix "CELL" = .error msg)
    ∧ (∃ msg, getitem cFix "mesh" = .error msg) :=
  ⟨(claim_C3 cFix "cell").2.2 (by decide) oCell (by decide) rfl,
   (claim_C3 cFix "Position").2.2 (by decide) oPos (by decide) rfl,
   (claim_C3 cFix "CELL").2.1.mpr (by decide),
   (claim_C3 cFix "mesh").2.1.mpr (by decide)⟩

/-- Reading an attribute right after storing it yields the stored value:
the overwritten-entry case. -/
theorem find?_map_overwrite (l : List (String × AttrValue)) (k : String)
    (v : AttrValue) (h : l.any (fun p => p.1 == k) = true) :
    (l.map (fun p => if p.1 == k then (k, v) else p)).find?
      (fun p => p.1 == k) = some (k, v) := by
  induction l with
  | nil => simp at h
  | cons a t ih =>
    by_cases ha : a.1 == k
    · rw [List.map_cons, if_pos ha]
      exact List.find?_cons_of_pos _ (by simp)
    · rw [List.map_cons, if_neg ha, List.find?_cons_of_neg _ (by simpa using ha)]
      refine ih ?_
      rcases List.any_eq_true.mp h with ⟨x, hx, hpx⟩
      rcases List.mem_cons.mp hx with rfl | hxt
      · exact absurd hpx ha
      · exact List.any_eq_true.mpr ⟨x, hxt, hpx⟩

/-- Reading an attribute right after storing it yields the stored value:
the appended-entry case. -/
theorem find?_append_new (l : List (String × AttrValue)) (k : String)
    (v : AttrValue) (h : l.any (fun p => p.1 == k) = false) :
    (l ++ [(k, v)]).find? (fun p => p.1 == k) = some (k, v) := by
  rw [List.find?_append]
  have h1 : l.find? (fun p => p.1 == k) = none :=
    List.find?_eq_none.mpr (fun x hx => by
      have := List.any_eq_false.mp h x hx
      simpa using this)
  rw [h1]
  simp

/-- `get_attribute` after `storeAttr` returns the stored value. -/
theorem get_attribute_store (c : DataCollection) (k : String) (v : AttrValue) :
    get_attribute (storeAttr c k v) k = some v := by
  unfold get_attribute storeAttr storeList
  by_cases h : c.attrs.any (fun p => p.1 == k) = true
  · rw [if_pos h, find?_map_overwrite c.attrs k v h]
    rfl
  · rw [if_neg h, find?_append_new c.attrs k v (Bool.eq_false_iff.mpr h)]
    rfl

/-- `get_attribute` after `removeAttr` reports the attribute as absent. -/
theorem get_attribute_remove (c : DataCollection) (k : String) :
    get_attribute (removeAttr c k) k = none := by
  unfold get_attribute removeAttr removeList
  have h : (c.attrs.filter (fun p => !(p.1 == k))).find? (fun p => p.1 == k) = none := by
    refine List.find?_eq_none.mpr (fun x hx => ?_)
    have := (List.mem_filter.mp hx).2
    simp only [Bool.not_eq_true'] at this
    simp [this]
  rw [h]
  rfl

/-- Claim C4: the attribute round trip.  Setting attribute `k` to a
permitted value through the attributes view and reading `k` back returns
that value; reading an attribute that is absent raises `KeyError`. -/
theorem claim_C4 (c : DataCollection) (k : String) (a : AttrValue) :
    (attrView_setitem c k a.toPy = .ok (storeAttr c k a)
      ∧ attrView_getitem (storeAttr c k a) k = .ok a)
    ∧ (get_attribute c k = none → ∃ msg, attrView_getitem c k = .error msg) := by
  refine ⟨⟨?_, ?_⟩, ?_⟩
  · cases a <;> rfl
  · unfold attrView_getitem
    rw [get_attribute_store]
  · intro h
    unfold attrView_getitem
    rw [h]
    exact ⟨_, rfl⟩

/-- Witness for C4: storing the integer 42 under key `x` in the empty
collection and reading it back, and the `KeyError` on a key that was
never set. -/
theorem claim_C4_witness :
    (attrView_setitem emptyDC "x" (AttrValue.intVal 42).toPy
        = .ok (storeAttr emptyDC "x" (.intVal 42))
      ∧ attrView_getitem (storeAttr emptyDC "x" (.intVal 42)) "x"
        = .ok (.intVal 42))
    ∧ (∃ msg, attrView_getitem emptyDC "missing" = .error msg) :=
  ⟨(claim_C4 emptyDC "x" (.intVal 42)).1,
   (claim_C4 emptyDC "missing" (.intVal 0)).2 rfl⟩

/-- With pairwise distinct keys, every member object is found by the
`values()` identity scan used by `copy_if_needed`. -/
theorem inValues_of_mem {c : DataCollection} {obj : DataObject}
    (hnd : (keysList c).Nodup) (hm : obj ∈ c.objects) :
    inValues c obj = true := by
  unfold inValues
  refine List.any_eq_true.mpr ⟨objKey obj, List.mem_map_of_mem objKey hm, ?_⟩
  rw [getitem_self hnd hm]
  simp

/-- An object whose identity differs from every member of the collection
is not found by the `values()` scan. -/
theorem inValues_eq_false {c : DataCollection} {obj : DataObject}
    (h : ∀ o ∈ c.objects, o.oid ≠ obj.oid) : inValues c obj = false := by
  unfold inValues
  refine List.any_eq_false.mpr (fun k _ => ?_)
  cases hg : getitem c k with
  | ok o =>
    have hmem := (getitem_ok_mem hg).1
    simp only [hg]
    simpa using h o hmem
  | error m => simp [hg]

/-- Claim C2: calling `copy_if_needed` on an object that is not part of
the collection raises `ValueError` (never silently ignored), and in
particular never returns a result collection: the collection is left
unchanged. -/
theorem claim_C2 (c : DataCollection) (obj : DataObject) (freshId : Nat)
    (habs : ∀ o ∈ c.objects, o.oid ≠ obj.oid) :
    copy_if_needed c obj freshId =
      .error "DataCollection.copy_if_needed() must be called with an object that is part of this data collection."
    ∧ ∀ r, copy_if_needed c obj freshId ≠ .ok r := by
  have h : copy_if_needed c obj freshId =
      .error "DataCollection.copy_if_needed() must be called with an object that is part of this data collection." := by
    unfold copy_if_needed
    rw [inValues_eq_false habs]
    simp
  exact ⟨h, fun r hr => by rw [h] at hr; cases hr⟩

/-- Witness for C2: `oOutside` is not part of `cFix`, so `copy_if_needed`
raises `ValueError` on it. -/
theorem claim_C2_witness :
    copy_if_needed cFix oOutside 99 =
      .error "DataCollection.copy_if_needed() must be called with an object that is part of this data collection." :=
  (claim_C2 cFix oOutside 99 (by decide)).1

/-- After replacing a member object by a clone carrying the same key, the
key lookup finds the clone (first match in insertion order). -/
theorem find?_replace {l : List DataObject} {obj clone : DataObject}
    (hnd : (l.map objKey).Nodup) (hm : obj ∈ l)
    (hkey : objKey clone = objKey obj) :
    (l.map (fun o => if o.oid = obj.oid then clone else o)).find?
      (fun o => objKey o == objKey obj) = some clone := by
  induction l with
  | nil => cases hm
  | cons a t ih =>
    by_cases ha : a.oid = obj.oid
    · rw [List.map_cons, if_pos ha]
      exact List.find?_cons_of_pos _ (by simp [hkey])
    · have hao : obj ≠ a := fun he => ha (he ▸ rfl)
      have hmt : obj ∈ t := by
        rcases List.mem_cons.mp hm with he | hmt
        · exact absurd he hao
        · exact hmt
      have hnd' : (objKey a ∉ t.map objKey) ∧ (t.map objKey).Nodup := by
        rw [List.map_cons] at hnd
        exact List.nodup_cons.mp hnd
      have hne : objKey a ≠ objKey obj := by
        intro he
        exact hnd'.1 (he ▸ List.mem_map_of_mem objKey hmt)
      rw [List.map_cons, if_neg ha,
        List.find?_cons_of_neg _ (by simpa using hne)]
      exact ih hnd'.2 hmt

/-- Key lookup in the collection after `replace` yields the clone. -/
theorem getitem_replace {c : DataCollection} {obj : DataObject}
    (clone : DataObject) (hnd : (keysList c).Nodup) (hm : obj ∈ c.objects)
    (hkey : objKey clone = objKey obj) :
    getitem (replaceObj c obj clone) (objKey obj) = .ok clone := by
  unfold getitem replaceObj
  rw [find?_replace hnd hm hkey]

/-- Claim C1: for an object `obj` of the collection (under the spec's
key-uniqueness invariant, and with the clone helper allocating a fresh
identity), `copy_if_needed` returns the very same object when
`num_dependents <= 1` (no clone, collection untouched); when
`num_dependents > 1` it returns a distinct clone, replaces the original
in the collection, and the lookup for the object's former key now yields
the clone. -/
theorem claim_C1 (c : DataCollection) (obj : DataObject) (freshId : Nat)
    (hmem : obj ∈ c.objects)
    (hkeys : (keysList c).Nodup)
    (hfresh : ∀ o ∈ c.objects, o.oid ≠ freshId) :
    (obj.num_dependents ≤ 1 → copy_if_needed c obj freshId = .ok (c, obj))
    ∧ (obj.num_dependents > 1 →
        copy_if_needed c obj freshId =
          .ok (replaceObj c obj (cloneObj obj freshId), cloneObj obj freshId)
        ∧ (cloneObj obj freshId).oid ≠ obj.oid
        ∧ getitem (replaceObj c obj (cloneObj obj freshId)) (objKey obj)
            = .ok (cloneObj obj freshId)) := by
  have hin := inValues_of_mem hkeys hmem
  constructor
  · intro hle
    have hnot : ¬ obj.num_dependents > 1 := by omega
    unfold copy_if_needed
    rw [hin, if_pos rfl, if_neg hnot]
  · intro hgt
    refine ⟨?_, ?_, ?_⟩
    · unfold copy_if_needed
      rw [hin, if_pos rfl, if_pos hgt]
    · have := hfresh obj hmem
      simp [cloneObj]
      omega
    · exact getitem_replace _ hkeys hmem rfl

/-- Witness for C1 on the fixture collection: `oCell` has a single
dependent and is returned unchanged; `oPos` is shared
(`num_dependents = 2`), so it is cloned, replaced, and its former key
now resolves to the clone. -/
theorem claim_C1_witness :
    copy_if_needed cFix oCell 99 = .ok (cFix, oCell)
    ∧ copy_if_needed cFix oPos 99 =
        .ok (replaceObj cFix oPos (cloneObj oPos 99), cloneObj oPos 99)
    ∧ (cloneObj oPos 99).oid ≠ oPos.oid
    ∧ getitem (replaceObj cFix oPos (cloneObj oPos 99)) (objKey oPos)
        = .ok (cloneObj oPos 99) :=
  ⟨(claim_C1 cFix oCell 99 (by decide) (by decide) (by decide)).1 (by decide),
   (claim_C1 cFix oPos 99 (by decide) (by decide) (by decide)).2 (by decide)⟩

/-- Counterexample to C5 as stated: `None` is not of type int, float or
string, yet storing it through the attributes view is not rejected with
an error — it succeeds and removes the attribute (this is the very
mechanism `__delitem__` relies on). -/
theorem claim_C5_counterexample :
    attrView_setitem ⟨[], [("x", AttrValue.intVal 1)]⟩ "x" PyValue.pyNone
      = .ok ⟨[], []⟩ := by
  rfl

/-- Claim C5 as amended: storing a value of any type other than int,
float or string through the attributes view is rejected with an error,
with the single exception of `None`, which removes the attribute
instead of being stored; consequently only int, float and string values
are ever accepted into the attributes namespace (whatever a successful
set leaves stored under the key is exactly the int, float or string
that was passed). -/
theorem claim_C5_amended (c : DataCollection) (k : String) (v : PyValue) :
    (∀ t, v = .pyOther t → ∃ msg, attrView_setitem c k v = .error msg)
    ∧ (v = .pyNone → attrView_setitem c k v = .ok (removeAttr c k))
    ∧ (∀ c', attrView_setitem c k v = .ok c' →
        ∀ a, get_attribute c' k = some a → a.toPy = v) := by
  refine ⟨?_, ?_, ?_⟩
  · rintro t rfl
    exact ⟨_, rfl⟩
  · rintro rfl
    rfl
  · intro c' hset a hget
    cases v with
    | pyInt i =>
      cases hset
      rw [get_attribute_store] at hget
      cases hget
      rfl
    | pyFloat x =>
      cases hset
      rw [get_attribute_store] at hget
      cases hget
      rfl
    | pyStr s =>
      cases hset
      rw [get_attribute_store] at hget
      cases hget
      rfl
    | pyNone =>
      cases hset
      rw [get_attribute_remove] at hget
      cases hget
    | pyOther t =>
      cases hset

/-- Witness for the amended C5: a list-typed value is rejected, `None`
removes the stored attribute, and a stored float is exactly the float
that was passed. -/
theorem claim_C5_amended_witness :
    (∃ msg, attrView_setitem cFix "y" (.pyOther "list") = .error msg)
    ∧ attrView_setitem cFix "Timestep" .pyNone = .ok (removeAttr cFix "Timestep")
    ∧ (AttrValue.floatVal (1/2)).toPy = PyValue.pyFloat (1/2) :=
  ⟨(claim_C5_amended cFix "y" (.pyOther "list")).1 "list" rfl,
   (claim_C5_amended cFix "Timestep" .pyNone).2.1 rfl,
   (claim_C5_amended cFix "z" (.pyFloat (1/2))).2.2
     (storeAttr cFix "z" (.floatVal (1/2))) rfl (.floatVal (1/2))
     (get_attribute_store cFix "z" (.floatVal (1/2)))⟩

/-- Claim C10: deletion through the attributes view is realised by
setting the attribute to `None`, and the view treats a `None`-valued
attribute as absent: deleting a present key succeeds (by calling
`set_attribute(key, None)`) and a subsequent read of the key raises
`KeyError`; deleting an absent key raises `KeyError`; and no read
through the view ever returns `None` as an attribute value. -/
theorem claim_C10 (c : DataCollection) (k : String) :
    (∀ v, get_attribute c k = some v →
        attrView_delitem c k = set_attribute c k .pyNone
        ∧ attrView_delitem c k = .ok (removeAttr c k)
        ∧ ∃ msg, attrView_getitem (removeAttr c k) k = .error msg)
    ∧ (get_attribute c k = none → ∃ msg, attrView_delitem c k = .error msg)
    ∧ (∀ r, attrView_getitemPy c k = .ok r → r ≠ .pyNone) := by
  refine ⟨?_, ?_, ?_⟩
  · intro v hv
    refine ⟨?_, ?_, ?_⟩
    · unfold attrView_delitem
      rw [hv]
    · unfold attrView_delitem
      rw [hv]
      rfl
    · unfold attrView_getitem
      rw [get_attribute_remove]
      exact ⟨_, rfl⟩
  · intro h
    unfold attrView_delitem
    rw [h]
    exact ⟨_, rfl⟩
  · intro r hr
    unfold attrView_getitemPy attrView_getitem at hr
    cases hg : get_attribute c k with
    | some a =>
      rw [hg] at hr
      cases hr
      cases a <;> simp [AttrValue.toPy]
    | none =>
      rw [hg] at hr
      cases hr

/-- Witness for C10 on the fixture collection: deleting the present
`Timestep` attribute succeeds by setting it to `None` and makes
subsequent reads raise `KeyError`; deleting the absent key `gone`
raises `KeyError`; and the read of `Timestep` does not return `None`. -/
theorem claim_C10_witness :
    attrView_delitem cFix "Timestep" = set_attribute cFix "Timestep" .pyNone
    ∧ attrView_delitem cFix "Timestep" = .ok (removeAttr cFix "Timestep")
    ∧ (∃ msg, attrView_getitem (removeAttr cFix "Timestep") "Timestep" = .error msg)
    ∧ (∃ msg, attrView_delitem cFix "gone" = .error msg)
    ∧ PyValue.pyInt 140000 ≠ PyValue.pyNone :=
  ⟨((claim_C10 cFix "Timestep").1 (.intVal 140000) rfl).1,
   ((claim_C10 cFix "Timestep").1 (.intVal 140000) rfl).2.1,
   ((claim_C10 cFix "Timestep").1 (.intVal 140000) rfl).2.2,
   (claim_C10 cFix "gone").2.1 rfl,
   (claim_C10 cFix "Timestep").2.2 (.pyInt 140000) rfl⟩

/-- Every index of the execution trace is at least the starting index. -/
theorem evalMods_trace_le {mods : List Modifier} {c : DataCollection}
    {i j : Nat} {st : PipelineStatus}
    (h : (j, st) ∈ (evalMods mods c i).2) : i ≤ j := by
  induction mods generalizing c i with
  | nil => simp [evalMods] at h
  | cons m ms ih =>
    by_cases he : m.enabled = true
    · by_cases herr : (m.run c).2.severity = .error
      · simp [evalMods, he, herr] at h
        omega
      · simp only [evalMods, if_pos he, if_neg herr] at h
        rcases List.mem_cons.mp h with heq | hm
        · have : j = i := congrArg Prod.fst heq
          omega
        · have := ih hm
          omega
    · simp only [evalMods, if_neg he] at h
      have := ih h
      omega

/-- In a fail-fast trace an Error-severity entry is the last one: the
trace is the earlier (non-error, lower-index) entries followed by the
erroring modifier, and nothing after it. -/
theorem evalMods_error_last {mods : List Modifier} {c : DataCollection}
    {i k : Nat} {st : PipelineStatus}
    (hmem : (k, st) ∈ (evalMods mods c i).2) (herr : st.severity = .error) :
    ∃ pre, (evalMods mods c i).2 = pre ++ [(k, st)]
      ∧ ∀ q ∈ pre, q.2.severity ≠ Severity.error ∧ q.1 < k := by
  induction mods generalizing c i with
  | nil => simp [evalMods] at hmem
  | cons m ms ih =>
    by_cases he : m.enabled = true
    · by_cases hme : (m.run c).2.severity = .error
      · simp only [evalMods, if_pos he, if_pos hme] at hmem ⊢
        simp only [List.mem_singleton, Prod.mk.injEq] at hmem
        obtain ⟨rfl, rfl⟩ := hmem
        exact ⟨[], rfl, by simp⟩
      · simp only [evalMods, if_pos he, if_neg hme] at hmem ⊢
        rcases List.mem_cons.mp hmem with heq | hmem'
        · exfalso
          have hst : st = (m.run c).2 := congrArg Prod.snd heq
          rw [hst] at herr
          exact hme herr
        · obtain ⟨pre, hpre, hall⟩ := ih hmem'
          have hik : i + 1 ≤ k := evalMods_trace_le hmem'
          refine ⟨(i, (m.run c).2) :: pre, by simp [hpre], ?_⟩
          intro q hq
          rcases List.mem_cons.mp hq with rfl | hq'
          · exact ⟨hme, by omega⟩
          · exact hall q hq'
    · simp only [evalMods, if_neg he] at hmem ⊢
      exact ih hmem

/-- When the executed statuses are some non-error statuses followed by
one Error status, the aggregate is exactly that Error status (severity
and message). -/
theorem aggregate_of_error_last {pre : List PipelineStatus}
    {st : PipelineStatus} (herr : st.severity = .error)
    (hpre : ∀ q ∈ pre, q.severity ≠ Severity.error) :
    aggregateStatus (pre ++ [st]) = st := by
  unfold aggregateStatus
  rw [List.find?_append]
  have h1 : pre.find? (fun s => s.severity == Severity.error) = none :=
    List.find?_eq_none.mpr (fun x hx => by simpa using hpre x hx)
  rw [h1]
  simp [herr]

/-- Claim C8: fail-fast law.  If the modifier at list position `k` runs
and reports Error status during an evaluation, then no modifier at a
later position is ever executed in that evaluation, and the aggregate
status equals that modifier's Error status, message included. -/
theorem claim_C8 (mods : List Modifier) (c : DataCollection) (k : Nat)
    (st : PipelineStatus)
    (hmem : (k, st) ∈ (evalMods mods c 0).2) (herr : st.severity = .error) :
    (∀ j st', (j, st') ∈ (evalMods mods c 0).2 → j ≤ k)
    ∧ aggregateStatus ((evalMods mods c 0).2.map Prod.snd) = st := by
  obtain ⟨pre, hpre, hall⟩ := evalMods_error_last hmem herr
  constructor
  · intro j st' hmem'
    rw [hpre] at hmem'
    rcases List.mem_append.mp hmem' with h | h
    · exact le_of_lt (hall _ h).2
    · have : j = k := congrArg Prod.fst (List.mem_singleton.mp h)
      omega
  · rw [hpre, List.map_append]
    refine aggregate_of_error_last herr (fun q hq => ?_)
    obtain ⟨x, hx, rfl⟩ := List.mem_map.mp hq
    exact (hall x hx).1

/-- Witness for C8: a warning modifier, then an erroring one, then a
third; the aggregate status of the evaluation is the second modifier's
Error status with its message, and every executed position is at
most 1. -/
theorem claim_C8_witness :
    aggregateStatus ((evalMods [mWarn, mErr, mOk] emptyDC 0).2.map Prod.snd)
      = ⟨Severity.error, "boom"⟩ :=
  (claim_C8 [mWarn, mErr, mOk] emptyDC 1 ⟨.error, "boom"⟩ (by decide) rfl).2

/-- A valid-frame `compute` with a cache hit returns the cached
collection itself, leaving the pipeline untouched. -/
theorem compute_cached {p : Pipeline} {frame : Nat} {d : PDC}
    {st : PipelineStatus}
    (hl : lookupCache p.cache (cacheKeyAt p frame) = some ⟨d, st⟩)
    (hf : frame < p.source.num_frames) :
    compute p frame = .ok (p, d, st) := by
  unfold compute
  rw [if_pos hf, hl]

/-- Claim C9: idempotence of `compute` under an unchanged pipeline.
If `compute p frame` succeeds, returning the pipeline state `p'` and a
result collection `d`, then calling `compute` again on `p'` (no
structural change in between: same modifiers, same revision, same
source) returns the very same collection instance `d` — equal including
its identity `cid`, and without touching the pipeline state, so no new
instance is allocated — served from the cache entry holding `d`
itself. -/
theorem claim_C9 (p : Pipeline) (frame : Nat) (p' : Pipeline) (d : PDC)
    (st : PipelineStatus) (h : compute p frame = .ok (p', d, st)) :
    compute p' frame = .ok (p', d, st)
    ∧ lookupCache p'.cache (cacheKeyAt p' frame) = some ⟨d, st⟩ := by
  by_cases hf : frame < p.source.num_frames
  · unfold compute at h
    rw [if_pos hf] at h
    cases hl : lookupCache p.cache (cacheKeyAt p frame) with
    | some r =>
      rw [hl] at h
      injection h with h'
      have h1 : p = p' := congrArg (·.1) h'
      have h2 : r.collection = d := congrArg (·.2.1) h'
      have h3 : r.status = st := congrArg (·.2.2) h'
      subst h1
      subst h2
      subst h3
      refine ⟨compute_cached hl hf, ?_⟩
      rw [hl]
    | none =>
      rw [hl] at h
      by_cases ha :
          (aggregateStatus (pipelineStatuses p frame)).severity = .error
      · rw [if_pos ha] at h
        cases h
      · rw [if_neg ha] at h
        injection h with h'
        have h1 : ({ p with
            cache := (cacheKeyAt p frame,
              ⟨⟨p.nextId, pipelineResultData p frame⟩,
                aggregateStatus (pipelineStatuses p frame)⟩) :: p.cache,
            nextId := p.nextId + 1 } : Pipeline) = p' := congrArg (·.1) h'
        have h2 : (⟨p.nextId, pipelineResultData p frame⟩ : PDC) = d :=
          congrArg (·.2.1) h'
        have h3 : aggregateStatus (pipelineStatuses p frame) = st :=
          congrArg (·.2.2) h'
        subst h1
        subst h2
        subst h3
        have hlook : lookupCache
            ((cacheKeyAt p frame,
               ⟨⟨p.nextId, pipelineResultData p frame⟩,
                 aggregateStatus (pipelineStatuses p frame)⟩) :: p.cache)
            (cacheKeyAt p frame)
            = some ⟨⟨p.nextId, pipelineResultData p frame⟩,
                aggregateStatus (pipelineStatuses p frame)⟩ := by
          unfold lookupCache
          rw [List.find?_cons_of_pos _ (by simp)]
          rfl
        exact ⟨compute_cached hlook hf, hlook⟩
  · unfold compute at h
    rw [if_neg hf] at h
    cases h

/-- Witness for C9: the no-modifier pipeline over the one-frame source.
The first `compute 0` caches the result and moves the state to
`pPlainAfter`; calling `compute 0` on `pPlainAfter` returns the same
collection instance (`cid = 0`) and leaves the state unchanged. -/
theorem claim_C9_witness :
    compute pPlainAfter 0 = .ok (pPlainAfter, ⟨0, emptyDC⟩, ⟨.success, ""⟩)
    ∧ lookupCache pPlainAfter.cache (cacheKeyAt pPlainAfter 0)
        = some ⟨⟨0, emptyDC⟩, ⟨.success, ""⟩⟩ :=
  claim_C9 pPlain 0 pPlainAfter ⟨0, emptyDC⟩ ⟨.success, ""⟩ rfl

/-- Claim C6: when `export_file` receives a `Pipeline` and its
evaluation at the export frame reports Error severity, the error is
raised at the defensive `compute` call: `export_file` stops with that
error message, the pipeline is never handed to the exporter, and no
frame is ever written — Error-status data never reaches the exporter. -/
theorem claim_C6 (p : Pipeline) (frames : List Nat) (frame : Nat)
    (canceled : Nat → Bool)
    (hv : frame < p.source.num_frames)
    (hmiss : lookupCache p.cache (cacheKeyAt p frame) = none)
    (herr : (aggregateStatus (pipelineStatuses p frame)).severity = .error) :
    exportFileModel (.pipelineData p) frames frame canceled
      = ([], .error (aggregateStatus (pipelineStatuses p frame)).message)
    ∧ ExportEvent.handedPipeline
        ∉ (exportFileModel (.pipelineData p) frames frame canceled).1
    ∧ ∀ f, ExportEvent.wroteFrame f
        ∉ (exportFileModel (.pipelineData p) frames frame canceled).1 := by
  have hc : compute p frame
      = .error (aggregateStatus (pipelineStatuses p frame)).message := by
    unfold compute
    rw [if_pos hv]
    simp only [hmiss]
    rw [if_pos herr]
  have he : exportFileModel (.pipelineData p) frames frame canceled
      = ([], .error (aggregateStatus (pipelineStatuses p frame)).message) := by
    unfold exportFileModel
    simp only [hc]
  refine ⟨he, ?_, ?_⟩
  · rw [he]
    simp
  · intro f
    rw [he]
    simp

/-- Witness for C6: exporting the failing pipeline `pFail` raises the
modifier's error message before anything is handed to the exporter. -/
theorem claim_C6_witness :
    exportFileModel (.pipelineData pFail) [0] 0 (fun _ => false)
      = ([], .error "boom") :=
  (claim_C6 pFail [0] 0 (fun _ => false) (by decide) rfl rfl).1

/-- The native exporter's frame loop retains exactly the frames written
before the first cancellation point. -/
theorem export_nodes_written (frames : List Nat) (canceled : Nat → Bool) :
    (export_nodes frames canceled).1
      = frames.takeWhile (fun x => !(canceled x)) := by
  induction frames with
  | nil => rfl
  | cons f fs ih =>
    by_cases hc : canceled f = true
    · simp [export_nodes, List.takeWhile_cons, hc]
    · have hc' : canceled f = false := Bool.eq_false_iff.mpr hc
      simp [export_nodes, List.takeWhile_cons, hc', ih]

/-- The native exporter's frame loop reports `false` whenever the
cancellation flag is raised at one of the requested frames. -/
theorem export_nodes_canceled {frames : List Nat} {canceled : Nat → Bool}
    {f : Nat} (hf : f ∈ frames) (hc : canceled f = true) :
    (export_nodes frames canceled).2 = false := by
  induction frames with
  | nil => cases hf
  | cons a t ih =>
    by_cases ha : canceled a = true
    · simp [export_nodes, ha]
    · have hft : f ∈ t := by
        rcases List.mem_cons.mp hf with rfl | h
        · exact absurd hc ha
        · exact h
      have ha' : canceled a = false := Bool.eq_false_iff.mpr ha
      simp [export_nodes, ha', ih hft]

/-- Counterexample to C7 as stated: at a concrete canceled multi-frame
export, `export_file` does not return a canceled boolean/status to its
caller — it raises (`RuntimeError`, modelled as the error outcome),
so the claim that the operation returns a status rather than raising an
exception fails at the `export_file` boundary documented at
`export_file.py` lines 177-178. -/
theorem claim_C7_counterexample :
    (exportFileModel (.pipelineData pPlain) [0, 1, 2] 0 cancelAtOne).2
      = .error "Operation has been canceled by the user." := by
  rfl

/-- Claim C7 as amended: when a multi-frame export is canceled by the
user at one of the frames, the native `export_nodes` long-running loop
signals cancellation by returning the distinguished boolean `false`
(not by raising), retaining the partial output written before the
cancellation point (the frames before the first canceled one); the
`export_file` wrapper then surfaces this to the Python caller by
raising a `RuntimeError` carrying the distinguishable message
"Operation has been canceled by the user." rather than returning a
status. -/
theorem claim_C7_amended (frames : List Nat) (canceled : Nat → Bool)
    (f : Nat) (hf : f ∈ frames) (hc : canceled f = true) :
    (export_nodes frames canceled).2 = false
    ∧ (export_nodes frames canceled).1
        = frames.takeWhile (fun x => !(canceled x))
    ∧ (∀ pre, (runExporter pre frames canceled).2
        = .error "Operation has been canceled by the user.")
    ∧ (∀ pre, (runExporter pre frames canceled).1
        = pre ++ [ExportEvent.handedPipeline]
          ++ (frames.takeWhile (fun x => !(canceled x))).map
               ExportEvent.wroteFrame) := by
  have h2 := export_nodes_canceled hf hc
  refine ⟨h2, export_nodes_written frames canceled, ?_, ?_⟩
  · intro pre
    unfold runExporter
    rw [h2]
    simp
  · intro pre
    unfold runExporter
    rw [h2, export_nodes_written]
    simp

/-- Witness for the amended C7: exporting frames 0, 1, 2 with the user
canceling at frame 1 writes frame 0 only, makes `export_nodes` report
`false`, and makes the exporter tail raise the canceled
`RuntimeError`. -/
theorem claim_C7_amended_witness :
    (export_nodes [0, 1, 2] cancelAtOne).2 = false
    ∧ (export_nodes [0, 1, 2] cancelAtOne).1 = [0]
    ∧ (runExporter [] [0, 1, 2] cancelAtOne).2
        = .error "Operation has been canceled by the user." := by
  obtain ⟨h1, h2, h3, _⟩ :=
    claim_C7_amended [0, 1, 2] cancelAtOne 1 (by decide) (by decide)
  exact ⟨h1, by rw [h2]; decide, h3 []⟩

end Ovito
